import Mathlib

/-!
Verification of the FHIR REST reconciliation engine
(`terraform-provider-fhirrest`, package `provider`).

The development shallowly embeds the parts of the Go source that carry the
contracts under scrutiny:

* identifier construction (`fmt.Sprintf("%s/%s", type, id)`) and the bare-id
  extraction performed by `persistFhirResource`
  (`strings.Split(*resourceId, "/")` followed by `parts[len(parts)-1]`);
* document loading and validation (`json.Unmarshal` into a schema-less
  object, the `resourceType` presence check, `fmt.Sprintf("%s", v)`
  formatting of the looked-up value);
* base-URL resolution (provider default overridden by the per-resource
  pointer when it is non-nil);
* header assembly (`http.Header.Set` over the configured default headers,
  then `Content-Type: application/json` forced last, with Go's canonical
  MIME header-key normalisation);
* status classification (`response.Status[0] != '2'`, which indexes the
  status string and hence panics when it is empty);
* response post-processing (unchecked `.(string)` type assertions on the
  parsed response body) and the SHA-256 fingerprint of the raw body bytes.

Effectful Go code is modelled by explicit data flow: the file content and the
HTTP response are inputs of the operation functions, and the outcome type
distinguishes a structured diagnostic (`AddError`) from a runtime panic.
-/

/-! ## Go byte strings -/

/-- UTF-8 encoding of one character, as Go lays a `string` out in memory. -/
def utf8Encode (c : Char) : List Nat :=
  let n := c.toNat
  if n < 128 then [n]
  else if n < 2048 then
    [192 + (n / 64), 128 + (n % 64)]
  else if n < 65536 then
    [224 + (n / 4096), 128 + ((n / 64) % 64), 128 + (n % 64)]
  else
    [240 + (n / 262144), 128 + ((n / 4096) % 64), 128 + ((n / 64) % 64), 128 + (n % 64)]

/-- The byte sequence of a Go string: the UTF-8 bytes of its characters. -/
def utf8Bytes (s : String) : List Nat :=
  s.data.foldr (fun c acc => utf8Encode c ++ acc) []

/-! ## Identifier codec

`fmt.Sprintf("%s/%s", resourceType, id)` builds the composite identifier;
`strings.Split(*resourceId, "/")` with `parts[len(parts)-1]` extracts the
bare id on update.  `strings.Split` with the one-character separator `/` is
modelled character-exactly. -/

/-- `strings.Split(s, sep)` for a one-character separator: the list of
maximal separator-free segments (always non-empty; `Split("", sep) = [""]`,
`Split("/", "/") = ["", ""]`). -/
def splitOnChar (sep : Char) : List Char → List (List Char)
  | [] => [[]]
  | c :: rest =>
    let r := splitOnChar sep rest
    if c = sep then [] :: r
    else
      match r with
      | [] => [[c]]
      | g :: gs => (c :: g) :: gs

/-- `parts[len(parts)-1]`: the last element of a non-empty list of parts. -/
def lastPart : List (List Char) → List Char
  | [] => []
  | [a] => a
  | _ :: b :: r => lastPart (b :: r)

/-- The bare id `persistFhirResource` injects into the document on update:
`parts := strings.Split(*resourceId, "/"); parts[len(parts)-1]`. -/
def extractBareId (s : String) : String :=
  String.mk (lastPart (splitOnChar '/' s.data))

/-- `fmt.Sprintf("%s/%s", resourceType, id)`: composite identifier
construction, used by Create, Read and Update when storing `resource_id`. -/
def buildIdentifier (type id : String) : String :=
  type ++ "/" ++ id

/-- Modelled from the spec: the `IdentifierCodec.Parse` contract — split at
the *leftmost* `/`, the prefix is the type, everything after is the id
(preserved verbatim), failure when no `/` occurs.  The Go source has no such
function; its only identifier parsing is `extractBareId`.  This definition
exists to compare the spec's contract with the source's behaviour. -/
def splitAtFirstSep (sep : Char) : List Char → Option (List Char × List Char)
  | [] => none
  | c :: rest =>
    if c = sep then some ([], rest)
    else (splitAtFirstSep sep rest).map (fun p => (c :: p.1, p.2))

/-- Modelled from the spec: `Parse(s) -> (type, id)` splitting at the
leftmost `/` (see `splitAtFirstSep`). -/
def specParse (s : String) : Option (String × String) :=
  (splitAtFirstSep '/' s.data).map (fun p => (String.mk p.1, String.mk p.2))

/-! ### Facts about the split -/

theorem splitOnChar_ne_nil (sep : Char) (l : List Char) : splitOnChar sep l ≠ [] := by
  cases l with
  | nil => simp [splitOnChar]
  | cons c rest =>
    simp only [splitOnChar]
    split
    · simp
    · cases h : splitOnChar sep rest <;> simp

theorem splitOnChar_of_not_mem (sep : Char) (l : List Char) (h : sep ∉ l) :
    splitOnChar sep l = [l] := by
  induction l with
  | nil => rfl
  | cons c rest ih =>
    have hc : c ≠ sep := fun hc => h (hc ▸ List.mem_cons_self c rest)
    have hrest : sep ∉ rest := fun hm => h (List.mem_cons_of_mem _ hm)
    simp only [splitOnChar, if_neg hc, ih hrest]

theorem splitOnChar_length_ge_two (sep : Char) (l : List Char) (h : sep ∈ l) :
    2 ≤ (splitOnChar sep l).length := by
  induction l with
  | nil => cases h
  | cons c rest ih =>
    simp only [splitOnChar]
    by_cases hc : c = sep
    · rw [if_pos hc]
      have := splitOnChar_ne_nil sep rest
      cases hr : splitOnChar sep rest with
      | nil => exact absurd hr this
      | cons g gs => simp
    · rw [if_neg hc]
      have hmem : sep ∈ rest := by
        cases List.mem_cons.mp h with
        | inl h1 => exact absurd h1.symm hc
        | inr h2 => exact h2
      have h2 := ih hmem
      cases hr : splitOnChar sep rest with
      | nil => exact absurd hr (splitOnChar_ne_nil sep rest)
      | cons g gs =>
        rw [hr] at h2
        simpa using h2

theorem lastPart_cons_of_ne_nil (a : List Char) (l : List (List Char)) (h : l ≠ []) :
    lastPart (a :: l) = lastPart l := by
  cases l with
  | nil => exact absurd rfl h
  | cons b r => rfl

theorem lastPart_splitOnChar_append (sep : Char) (xs ys : List Char) (h : sep ∉ ys) :
    lastPart (splitOnChar sep (xs ++ sep :: ys)) = ys := by
  induction xs with
  | nil =>
    simp only [List.nil_append, splitOnChar, if_pos rfl, splitOnChar_of_not_mem sep ys h]
    rfl
  | cons c xs ih =>
    have hmem : sep ∈ xs ++ sep :: ys := by
      exact List.mem_append.mpr (Or.inr (List.mem_cons_self sep ys))
    simp only [List.cons_append, splitOnChar]
    by_cases hc : c = sep
    · rw [if_pos hc]
      rw [lastPart_cons_of_ne_nil _ _ (splitOnChar_ne_nil sep _)]
      exact ih
    · rw [if_neg hc]
      have hlen := splitOnChar_length_ge_two sep _ hmem
      cases hr : splitOnChar sep (xs ++ sep :: ys) with
      | nil => exact absurd hr (splitOnChar_ne_nil sep _)
      | cons g gs =>
        rw [hr] at hlen
        have hgs : gs ≠ [] := by
          cases gs with
          | nil => simp at hlen
          | cons _ _ => simp
        rw [lastPart_cons_of_ne_nil _ _ hgs]
        rw [hr] at ih
        rw [lastPart_cons_of_ne_nil _ _ hgs] at ih
        exact ih

theorem extractBareId_of_no_slash (s : String) (h : '/' ∉ s.data) :
    extractBareId s = s := by
  unfold extractBareId
  rw [splitOnChar_of_not_mem _ _ h]
  rfl

theorem extractBareId_buildIdentifier (t i : String) (h : '/' ∉ i.data) :
    extractBareId (buildIdentifier t i) = i := by
  unfold extractBareId buildIdentifier
  have hdata : (t ++ "/" ++ i).data = t.data ++ '/' :: i.data := by
    simp [String.data_append]
  rw [hdata, lastPart_splitOnChar_append _ _ _ h]

theorem splitAtFirstSep_append (sep : Char) (xs ys : List Char) (h : sep ∉ xs) :
    splitAtFirstSep sep (xs ++ sep :: ys) = some (xs, ys) := by
  induction xs with
  | nil => simp [splitAtFirstSep]
  | cons c xs ih =>
    have hc : c ≠ sep := fun hc => h (hc ▸ List.mem_cons_self c xs)
    have hxs : sep ∉ xs := fun hm => h (List.mem_cons_of_mem _ hm)
    simp [splitAtFirstSep, if_neg hc, ih hxs]

theorem specParse_buildIdentifier (t i : String) (h : '/' ∉ t.data) :
    specParse (buildIdentifier t i) = some (t, i) := by
  unfold specParse buildIdentifier
  have hdata : (t ++ "/" ++ i).data = t.data ++ '/' :: i.data := by
    simp [String.data_append]
  rw [hdata, splitAtFirstSep_append _ _ _ h]
  simp

/-! ## HTTP headers

Both call sites iterate the configured `DefaultHeaders` map with
`Header.Set(key, value)` and then execute
`Header.Set("Content-Type", "application/json")` last.  `net/http.Header.Set`
stores the value under the canonical MIME form of the key (Go's
`textproto.CanonicalMIMEHeaderKey`): when every byte is a valid header-field
byte, the first letter and every letter following a `-` are upper-cased and
all other letters lower-cased; otherwise the key is left unchanged.  A `Set`
replaces whatever list of values the key previously had, so the header map is
modelled as an association list from canonical keys to single values. -/

/-- Go `textproto.validHeaderFieldByte`: digits, letters, and the token
characters of RFC 7230. -/
def validHeaderChar (c : Char) : Bool :=
  let n := c.toNat
  (Nat.ble 48 n && Nat.ble n 57) || (Nat.ble 65 n && Nat.ble n 90) ||
  (Nat.ble 97 n && Nat.ble n 122) ||
  List.contains [33, 35, 36, 37, 38, 39, 42, 43, 45, 46, 94, 95, 96, 124, 126] n

/-- Case-transform of `CanonicalMIMEHeaderKey`: upper-case at the start and
after each `-` (character code 45), lower-case elsewhere. -/
def canonChars : Bool → List Char → List Char
  | _, [] => []
  | upper, c :: rest =>
    (if upper then c.toUpper else c.toLower) :: canonChars (c = Char.ofNat 45) rest

/-- Go `textproto.CanonicalMIMEHeaderKey`: canonicalise when every character
is a valid header-field byte, otherwise return the key unchanged. -/
def canonicalKey (s : String) : String :=
  if s.data.all validHeaderChar then String.mk (canonChars true s.data) else s

/-- `http.Header.Set`: replace the value stored under the canonical form of
the key, appending a fresh entry when none exists. -/
def hset : List (String × String) → String → String → List (String × String)
  | [], k, v => [(canonicalKey k, v)]
  | (k0, v0) :: rest, k, v =>
    if k0 = canonicalKey k then (k0, v) :: rest else (k0, v0) :: hset rest k v

/-- `http.Header.Get`: the value stored under the canonical form of the key. -/
def hlookup (h : List (String × String)) (k : String) : Option String :=
  match h with
  | [] => none
  | (k0, v0) :: rest => if k0 = canonicalKey k then some v0 else hlookup rest k

/-- The header assembly every operation performs: `Set` each configured
default header, then `Set("Content-Type", "application/json")` last
(`persistFhirResource` lines 173–176, `ReadFhirResource` lines 18–21,
`Delete` lines 307–310). -/
def buildHeaders (defaults : List (String × String)) : List (String × String) :=
  hset (defaults.foldl (fun h kv => hset h kv.1 kv.2) []) "Content-Type" "application/json"

theorem hlookup_hset_self (h : List (String × String)) (k v : String) :
    hlookup (hset h k v) k = some v := by
  induction h with
  | nil => simp [hset, hlookup]
  | cons p rest ih =>
    obtain ⟨k0, v0⟩ := p
    simp only [hset]
    by_cases hk : k0 = canonicalKey k
    · rw [if_pos hk]
      simp [hlookup, hk]
    · rw [if_neg hk]
      simp [hlookup, if_neg hk, ih]

theorem hlookup_hset_other (h : List (String × String)) (k v k2 : String)
    (hne : canonicalKey k2 ≠ canonicalKey k) :
    hlookup (hset h k v) k2 = hlookup h k2 := by
  induction h with
  | nil =>
    simp only [hset, hlookup]
    rw [if_neg (fun hc => hne hc.symm)]
  | cons p rest ih =>
    obtain ⟨k0, v0⟩ := p
    simp only [hset]
    by_cases hk : k0 = canonicalKey k
    · rw [if_pos hk]
      have : k0 ≠ canonicalKey k2 := fun hc => hne (hc.symm.trans hk)
      simp [hlookup, if_neg this]
    · rw [if_neg hk]
      simp only [hlookup]
      by_cases hk2 : k0 = canonicalKey k2
      · simp [if_pos hk2]
      · simp [if_neg hk2, ih]

theorem hlookup_foldl_of_all_ne (l : List (String × String)) (h0 : List (String × String))
    (k : String) (hall : ∀ p ∈ l, canonicalKey p.1 ≠ canonicalKey k) :
    hlookup (l.foldl (fun h kv => hset h kv.1 kv.2) h0) k = hlookup h0 k := by
  induction l generalizing h0 with
  | nil => rfl
  | cons p rest ih =>
    simp only [List.foldl_cons]
    rw [ih _ (fun q hq => hall q (List.mem_cons_of_mem _ hq))]
    exact hlookup_hset_other h0 p.1 p.2 k
      (fun hc => hall p (List.mem_cons_self p rest) hc.symm)

theorem hlookup_foldl_of_mem (l : List (String × String)) (h0 : List (String × String))
    (k v : String) (hmem : (k, v) ∈ l)
    (hnd : (l.map fun p => canonicalKey p.1).Nodup) :
    hlookup (l.foldl (fun h kv => hset h kv.1 kv.2) h0) k = some v := by
  induction l generalizing h0 with
  | nil => cases hmem
  | cons p rest ih =>
    simp only [List.map_cons, List.nodup_cons] at hnd
    cases List.mem_cons.mp hmem with
    | inl hp =>
      subst hp
      simp only [List.foldl_cons]
      rw [hlookup_foldl_of_all_ne rest (hset h0 k v) k
        (fun q hq hc => hnd.1 (hc ▸ List.mem_map_of_mem (fun p => canonicalKey p.1) hq))]
      exact hlookup_hset_self h0 k v
    | inr hrest =>
      simp only [List.foldl_cons]
      exact ih (hset h0 p.1 p.2) hrest hnd.2

/-! ## Schema-less JSON

`json.Unmarshal` into `map[string]interface{}` yields a dynamic value:
strings, numbers (Go decodes every JSON number as `float64`), booleans,
null, arrays and nested objects.  The model restricts numbers to integers —
every concrete input used below stays inside that fragment, and theorems
quantifying over documents take the decoded value as a hypothesis, so the
restriction never manufactures a fact the Go code does not have. -/

inductive JVal where
  | jstr (s : String)
  | jnum (n : Int)
  | jbool (b : Bool)
  | jnull
  | jarr (xs : List JVal)
  | jobj (fields : List (String × JVal))

/-- Go map lookup `m[k]` over the decoded field list: the *last* binding of
the key wins, matching `encoding/json`'s duplicate-key behaviour when filling
a map. -/
def lookupField (fs : List (String × JVal)) (k : String) : Option JVal :=
  fs.foldl (fun acc p => if p.1 = k then some p.2 else acc) none

/-- Go map assignment `m[k] = v`: with `lookupField` reading the last
binding, appending a fresh binding implements overwrite. -/
def setField (fs : List (String × JVal)) (k : String) (v : JVal) :
    List (String × JVal) :=
  fs ++ [(k, v)]

mutual

/-- `fmt.Sprintf("%s", v)` on an `interface{}` decoded from JSON: a string
prints verbatim; non-string scalars print as fmt's bad-verb forms
(`%!s(float64=5)`, `%!s(bool=true)`, `%!s(<nil>)`); composites print in
fmt's bracketed forms with map entries sorted. -/
def goFmtS : JVal → String
  | .jstr s => s
  | .jnum n => "%!s(float64=" ++ toString n ++ ")"
  | .jbool b => "%!s(bool=" ++ (if b then "true" else "false") ++ ")"
  | .jnull => "%!s(<nil>)"
  | .jarr xs => "[" ++ String.intercalate " " (goFmtList xs) ++ "]"
  | .jobj fs =>
      "map[" ++ String.intercalate " "
        ((goFmtFields fs).mergeSort (fun a b => decide (a ≤ b))) ++ "]"

def goFmtList : List JVal → List String
  | [] => []
  | v :: rest => goFmtS v :: goFmtList rest

def goFmtFields : List (String × JVal) → List String
  | [] => []
  | (k, v) :: rest => (k ++ ":" ++ goFmtS v) :: goFmtFields rest

end

/-! ### A JSON reader for the model

Concrete counterexamples and witnesses must run the same decoding the Go
code runs, so the model carries an executable recursive-descent reader for
the JSON fragment it uses (integer numbers; string escapes for quote,
backslash, slash, `\n`, `\r`, `\t`).  Inputs outside the fragment decode to
`none`; every concrete input below is inside the fragment and decodes
exactly as `encoding/json` does.  Recursion is fueled by the input length. -/

def jsonWsChar (c : Char) : Bool :=
  c = ' ' || c = Char.ofNat 9 || c = Char.ofNat 10 || c = Char.ofNat 13

def skipWs : List Char → List Char
  | [] => []
  | c :: rest => if jsonWsChar c then skipWs rest else c :: rest

/-- Read the remainder of a JSON string literal (the opening quote already
consumed), returning the decoded characters and the rest of the input. -/
def readStr (fuel : Nat) (cs : List Char) (acc : List Char) :
    Option (List Char × List Char) :=
  match fuel, cs with
  | 0, _ => none
  | _, [] => none
  | fuel + 1, c :: rest =>
    if c = '"' then some (acc.reverse, rest)
    else if c = '\\' then
      match rest with
      | [] => none
      | e :: rest2 =>
        if e = '"' then readStr fuel rest2 ('"' :: acc)
        else if e = '\\' then readStr fuel rest2 ('\\' :: acc)
        else if e = '/' then readStr fuel rest2 ('/' :: acc)
        else if e = 'n' then readStr fuel rest2 (Char.ofNat 10 :: acc)
        else if e = 'r' then readStr fuel rest2 (Char.ofNat 13 :: acc)
        else if e = 't' then readStr fuel rest2 (Char.ofNat 9 :: acc)
        else none
    else readStr fuel rest (c :: acc)

/-- Read a run of decimal digits into a natural number. -/
def readDigits (fuel : Nat) (cs : List Char) (acc : Nat) (seen : Bool) :
    Option (Nat × List Char) :=
  match fuel, cs with
  | 0, _ => none
  | _ + 1, [] => if seen then some (acc, []) else none
  | fuel + 1, c :: rest =>
    if c.isDigit then readDigits fuel rest (acc * 10 + (c.toNat - 48)) true
    else if seen then some (acc, c :: rest) else none

/-- Leading characters that may follow a number in this fragment; a `.`,
`e` or `E` would start a float, which the model does not read. -/
def floatFollows : List Char → Bool
  | [] => false
  | c :: _ => c = '.' || c = 'e' || c = 'E'

mutual

def readVal (fuel : Nat) (cs : List Char) : Option (JVal × List Char) :=
  match fuel with
  | 0 => none
  | fuel + 1 =>
    match skipWs cs with
    | [] => none
    | c :: rest =>
      if c = '"' then
        (readStr fuel rest []).map (fun p => (.jstr (String.mk p.1), p.2))
      else if c = 't' then
        match rest with
        | 'r' :: 'u' :: 'e' :: rest2 => some (.jbool true, rest2)
        | _ => none
      else if c = 'f' then
        match rest with
        | 'a' :: 'l' :: 's' :: 'e' :: rest2 => some (.jbool false, rest2)
        | _ => none
      else if c = 'n' then
        match rest with
        | 'u' :: 'l' :: 'l' :: rest2 => some (.jnull, rest2)
        | _ => none
      else if c = '-' then
        match readDigits fuel rest 0 false with
        | some (n, rest2) =>
          if floatFollows rest2 then none else some (.jnum (-(n : Int)), rest2)
        | none => none
      else if c.isDigit then
        match readDigits fuel (c :: rest) 0 false with
        | some (n, rest2) =>
          if floatFollows rest2 then none else some (.jnum (n : Int), rest2)
        | none => none
      else if c = Char.ofNat 91 then
        match skipWs rest with
        | c2 :: rest2 =>
          if c2 = Char.ofNat 93 then some (.jarr [], rest2)
          else readArrItems fuel (c2 :: rest2) []
        | [] => none
      else if c = Char.ofNat 123 then
        match skipWs rest with
        | c2 :: rest2 =>
          if c2 = Char.ofNat 125 then some (.jobj [], rest2)
          else readObjItems fuel (c2 :: rest2) []
        | [] => none
      else none

def readArrItems (fuel : Nat) (cs : List Char) (acc : List JVal) :
    Option (JVal × List Char) :=
  match fuel with
  | 0 => none
  | fuel + 1 =>
    match readVal fuel cs with
    | none => none
    | some (v, rest) =>
      match skipWs rest with
      | c :: rest2 =>
        if c = ',' then readArrItems fuel rest2 (v :: acc)
        else if c = Char.ofNat 93 then some (.jarr (v :: acc).reverse, rest2)
        else none
      | [] => none

def readObjItems (fuel : Nat) (cs : List Char) (acc : List (String × JVal)) :
    Option (JVal × List Char) :=
  match fuel with
  | 0 => none
  | fuel + 1 =>
    match skipWs cs with
    | '"' :: rest =>
      match readStr fuel rest [] with
      | none => none
      | some (key, rest2) =>
        match skipWs rest2 with
        | ':' :: rest3 =>
          match readVal fuel rest3 with
          | none => none
          | some (v, rest4) =>
            match skipWs rest4 with
            | c :: rest5 =>
              if c = ',' then readObjItems fuel rest5 ((String.mk key, v) :: acc)
              else if c = Char.ofNat 125 then
                some (.jobj ((String.mk key, v) :: acc).reverse, rest5)
              else none
            | [] => none
        | _ => none
    | _ => none

end

/-- `json.Unmarshal` of a whole input: one value followed only by
whitespace. -/
def jsonDecode (s : String) : Option JVal :=
  match readVal (s.data.length + 1) s.data with
  | some (v, rest) => if skipWs rest = [] then some v else none
  | none => none

/-- `json.Unmarshal(b, &m)` for `m : map[string]interface{}`: decoding
fails unless the top level is an object. -/
def jsonDecodeObj (s : String) : Option (List (String × JVal)) :=
  match jsonDecode s with
  | some (.jobj fs) => some fs
  | _ => none

/-! ## SHA-256 fingerprint

`sha256.Sum256(body)` followed by `hex.EncodeToString(hash[:])` computes the
stored fingerprint.  The digest is implemented from FIPS 180-4 over byte
lists, with 32-bit words as naturals reduced modulo `2^32`. -/

def w32 (x : Nat) : Nat := x % 4294967296

def rotr32 (n x : Nat) : Nat := w32 ((x >>> n) ||| (x <<< (32 - n)))

def sumA (x : Nat) : Nat := (rotr32 2 x) ^^^ ((rotr32 13 x) ^^^ (rotr32 22 x))
def sumE (x : Nat) : Nat := (rotr32 6 x) ^^^ ((rotr32 11 x) ^^^ (rotr32 25 x))
def sigLo (x : Nat) : Nat := (rotr32 7 x) ^^^ ((rotr32 18 x) ^^^ (x >>> 3))
def sigHi (x : Nat) : Nat := (rotr32 17 x) ^^^ ((rotr32 19 x) ^^^ (x >>> 10))

def chFn (x y z : Nat) : Nat := (x &&& y) ^^^ ((x ^^^ 4294967295) &&& z)
def majFn (x y z : Nat) : Nat := (x &&& y) ^^^ ((x &&& z) ^^^ (y &&& z))

/-- The 64 round constants of FIPS 180-4 (fractional parts of the cube
roots of the first 64 primes), written in decimal. -/
def sha256K : List Nat :=
  [1116352408, 1899447441, 3049323471, 3921009573, 961987163, 1508970993,
   2453635748, 2870763221, 3624381080, 310598401, 607225278, 1426881987,
   1925078388, 2162078206, 2614888103, 3248222580, 3835390401, 4022224774,
   264347078, 604807628, 770255983, 1249150122, 1555081692, 1996064986,
   2554220882, 2821834349, 2952996808, 3210313671, 3336571891, 3584528711,
   113926993, 338241895, 666307205, 773529912, 1294757372, 1396182291,
   1695183700, 1986661051, 2177026350, 2456956037, 2730485921, 2820302411,
   3259730800, 3345764771, 3516065817, 3600352804, 4094571909, 275423344,
   430227734, 506948616, 659060556, 883997877, 958139571, 1322822218,
   1537002063, 1747873779, 1955562222, 2024104815, 2227730452, 2361852424,
   2428436474, 2756734187, 3204031479, 3329325298]

/-- The initial hash state (fractional parts of the square roots of the
first 8 primes), in decimal. -/
def sha256H0 : List Nat :=
  [1779033703, 3144134277, 1013904242, 2773480762,
   1359893119, 2600822924, 528734635, 1541459225]

/-- A natural as `n` big-endian bytes. -/
def beBytes : Nat → Nat → List Nat
  | 0, _ => []
  | k + 1, x => ((x >>> (8 * k)) &&& 255) :: beBytes k x

/-- FIPS 180-4 padding: `0x80`, zeros to 56 mod 64, then the 64-bit
big-endian bit length. -/
def sha256Pad (msg : List Nat) : List Nat :=
  msg ++ 128 :: List.replicate ((120 - ((msg.length + 1) % 64)) % 64) 0 ++
    beBytes 8 (8 * msg.length)

/-- Group four bytes into one big-endian 32-bit word. -/
def bytesToWords : List Nat → List Nat
  | b0 :: b1 :: b2 :: b3 :: rest =>
      (b0 * 16777216 + b1 * 65536 + b2 * 256 + b3) :: bytesToWords rest
  | _ => []

/-- Split the padded message into 64-byte blocks. -/
def blocks64 (fuel : Nat) (l : List Nat) : List (List Nat) :=
  match fuel, l with
  | 0, _ => []
  | _, [] => []
  | fuel + 1, l => l.take 64 :: blocks64 fuel (l.drop 64)

/-- Message-schedule extension: append words 16..63. -/
def extendWords : Nat → List Nat → List Nat
  | 0, ws => ws
  | n + 1, ws =>
    let t := ws.length
    extendWords n (ws ++ [w32 (sigHi (ws.getD (t - 2) 0) + ws.getD (t - 7) 0 +
      sigLo (ws.getD (t - 15) 0) + ws.getD (t - 16) 0)])

/-- One compression round on the eight working variables. -/
def sha256Round (st : List Nat) (k w : Nat) : List Nat :=
  match st with
  | [a, b, c, d, e, f, g, h] =>
    let t1 := w32 (h + sumE e + chFn e f g + k + w)
    let t2 := w32 (sumA a + majFn a b c)
    [w32 (t1 + t2), a, b, c, w32 (d + t1), e, f, g]
  | st => st

/-- Compress one 64-byte block into the running hash state. -/
def sha256Compress (hs : List Nat) (block : List Nat) : List Nat :=
  let fin := (sha256K.zip (extendWords 48 (bytesToWords block))).foldl
    (fun st p => sha256Round st p.1 p.2) hs
  (hs.zip fin).map (fun p => w32 (p.1 + p.2))

/-- `sha256.Sum256`: the 32 digest bytes of a byte sequence. -/
def sha256Bytes (msg : List Nat) : List Nat :=
  ((blocks64 (msg.length + 9) (sha256Pad msg)).foldl sha256Compress sha256H0).foldr
    (fun wrd acc => beBytes 4 wrd ++ acc) []

def hexDigit (n : Nat) : Char :=
  if n < 10 then Char.ofNat (48 + n) else Char.ofNat (87 + n)

/-- `hex.EncodeToString`: lower-case hex of each byte. -/
def hexEncode (bs : List Nat) : String :=
  String.mk (bs.foldr (fun b acc => hexDigit (b / 16) :: hexDigit (b % 16) :: acc) [])

/-- The fingerprint stored in `response_sha256`:
`hex.EncodeToString(sha256.Sum256(body)[:])` over the raw response bytes. -/
def sha256Hex (msg : List Nat) : String :=
  hexEncode (sha256Bytes msg)

/-! ## Operation outcomes and data

Go reports failures by `diag.AddError(summary, detail)` and returning early;
an unchecked index or type assertion instead raises a runtime panic.  The
outcome type keeps the two apart. -/

inductive Outcome (α : Type) where
  | ok (a : α)
  | err (summary detail : String)
  | crash (msg : String)

def Outcome.isOk {α : Type} : Outcome α → Bool
  | .ok _ => true
  | _ => false

/-- `ProviderSettings`: the configured base URL and default headers (the
HTTP client handle carries no data relevant here). -/
structure ProviderSettings where
  fhirBaseUrl : String
  defaultHeaders : List (String × String)

/-- `FhirResourceSettings`: the per-resource file path and the optional
per-resource base-URL override (`FhirBaseUrl *string`; `none` is a nil
pointer). -/
structure FhirResourceSettings where
  fhirResourceFilePath : String
  fhirBaseUrl : Option String

/-- `FhirResourceModel`: the Terraform state/plan record.  `types.String`
null values are `none`. -/
structure FhirResourceModel where
  filePath : String
  fileSha256 : Option String
  fhirBaseUrl : Option String
  resourceId : Option String
  responseSha256 : Option String

/-- The body handed to `http.NewRequest`. -/
inductive ReqBody where
  | empty
  | rawBytes (s : String)
  | jsonDoc (fields : List (String × JVal))

/-- An outgoing request as the engine assembles it. -/
structure HttpRequest where
  method : String
  url : String
  headers : List (String × String)
  body : ReqBody

/-- An HTTP response: the status line (`Response.Status`, e.g. `"200 OK"`)
and the raw body bytes read by `io.ReadAll` (as a string of bytes). -/
structure HttpResponse where
  status : String
  body : String

/-- Base-URL resolution as written in `persistFhirResource` (lines 154–157)
and `Delete` (lines 297–300): start from the provider default, replace it
whenever the per-resource pointer is non-nil — including a pointer to the
empty string. -/
def resolveBaseUrl (override : Option String) (dflt : String) : String :=
  match override with
  | some u => u
  | none => dflt

/-- `response.Status[0]`: Go indexes the status string, so an empty status
panics with an index-out-of-range runtime error; otherwise the first
character is returned for the `!= '2'` comparison. -/
def statusFirstByte (status : String) : Outcome Char :=
  match status.data with
  | [] => .crash "runtime error: index out of range [0] with length 0"
  | c :: _ => .ok c

/-- The Go type assertion `v.(string)` on a value read out of a decoded
JSON map: yields the string, or panics (interface-conversion runtime error)
when the key was absent or the value is not a string. -/
def goStringAssert (v : Option JVal) : Outcome String :=
  match v with
  | some (.jstr s) => .ok s
  | _ => .crash "runtime error: interface conversion to string failed"

/-! ## persistFhirResource

The shared Create/Update path, split at the network boundary: the request
phase covers everything up to `Client.Do` (so a phase failure is exactly
"no network call issued"), and the response phase covers status
classification and body decoding.  `fileContent?` is the result of
`readFileContent` (`none` models an unreadable file). -/

/-- Request phase of `persistFhirResource` (lines 137–176): read and decode
the file, check `resourceType`, resolve the base URL, pick POST or PUT, and
on update inject the bare id (last `/`-segment of the existing identifier)
into the document.  Returns the assembled request together with
`resourceTypeStr`. -/
def persistRequest (ps : ProviderSettings) (fset : FhirResourceSettings)
    (resourceId : Option String) (fileContent : Option String) :
    Outcome (HttpRequest × String) :=
  match fileContent with
  | none => .err ("failed to read file " ++ fset.fhirResourceFilePath) ""
  | some content =>
    match jsonDecodeObj content with
    | none =>
      .err ("failed to unmarshal JSON file " ++ fset.fhirResourceFilePath)
        "json unmarshal error"
    | some fields =>
      match lookupField fields "resourceType" with
      | none =>
        .err ("property resourceType not found in json file " ++
          fset.fhirResourceFilePath) ""
      | some rtv =>
        match resourceId with
        | none =>
          .ok ({ method := "POST",
                 url := resolveBaseUrl fset.fhirBaseUrl ps.fhirBaseUrl ++ "/" ++ goFmtS rtv,
                 headers := buildHeaders ps.defaultHeaders,
                 body := .rawBytes content }, goFmtS rtv)
        | some rid =>
          .ok ({ method := "PUT",
                 url := resolveBaseUrl fset.fhirBaseUrl ps.fhirBaseUrl ++ "/" ++ rid,
                 headers := buildHeaders ps.defaultHeaders,
                 body := .jsonDoc (setField fields "id" (.jstr (extractBareId rid))) },
               goFmtS rtv)

/-- Response phase of `persistFhirResource` (lines 185–197): classify the
status by its first byte, then decode the body as a JSON object. Returns
the raw body together with the decoded object. -/
def persistResponse (resourceTypeStr url : String) (resp : HttpResponse) :
    Outcome (String × List (String × JVal)) :=
  match statusFirstByte resp.status with
  | .crash m => .crash m
  | .err s d => .err s d
  | .ok c =>
    if c = '2' then
      match jsonDecodeObj resp.body with
      | none =>
        .err ("failed to unmarshal response JSON of the resource " ++ resourceTypeStr)
          "json unmarshal error"
      | some json => .ok (resp.body, json)
    else
      .err ("the server returned an invalid status for the " ++ resourceTypeStr ++
        " on the url " ++ url ++ ": " ++ resp.status) resp.body

/-! ## The four operations -/

/-- `FhirResource.Create` (lines 109–134): run the persist pipeline with no
resource id, hash the raw response body, type-assert `id` out of the decoded
response, and store `resource_id = resourceTypeStr + "/" + id` and
`response_sha256` into the plan record. -/
def createOp (ps : ProviderSettings) (plan : FhirResourceModel)
    (fileContent : Option String) (resp : HttpResponse) :
    Outcome FhirResourceModel :=
  match persistRequest ps ⟨plan.filePath, plan.fhirBaseUrl⟩ none fileContent with
  | .err s d => .err s d
  | .crash m => .crash m
  | .ok (req, resourceTypeStr) =>
    match persistResponse resourceTypeStr req.url resp with
    | .err s d => .err s d
    | .crash m => .crash m
    | .ok (body, json) =>
      match goStringAssert (lookupField json "id") with
      | .err s d => .err s d
      | .crash m => .crash m
      | .ok id =>
        .ok { plan with
              resourceId := some (buildIdentifier resourceTypeStr id),
              responseSha256 := some (sha256Hex (utf8Bytes body)) }

/-- `ReadFhirResource` (the standalone GET helper), request part: the URL is
always built from the *configured* base URL — the function takes no
override parameter (its one caller inside the resource type nevertheless
passes one, which this definition, following the helper's own code, does
not consume). -/
def readFhirResourceRequest (ps : ProviderSettings) (resourceId : String) :
    HttpRequest :=
  { method := "GET",
    url := ps.fhirBaseUrl ++ "/" ++ resourceId,
    headers := buildHeaders ps.defaultHeaders,
    body := .empty }

/-- `ReadFhirResource`, response part (lines 30–35): classify the status by
its first byte and hand back the raw body. -/
def readFhirResourcePhase (ps : ProviderSettings) (resourceId : String)
    (resp : HttpResponse) : Outcome String :=
  match statusFirstByte resp.status with
  | .crash m => .crash m
  | .err s d => .err s d
  | .ok c =>
    if c = '2' then .ok resp.body
    else
      .err ("could not get the resource using the URL " ++
          (readFhirResourceRequest ps resourceId).url ++ ".")
        ("Error code " ++ resp.status ++ ". Response: " ++ resp.body)

/-- `FhirResource.Read` (lines 216–249): fetch via `ReadFhirResource`,
decode the body, hash it, type-assert `id` and `resourceType` out of the
decoded object, and rebuild `resource_id` from the response fields. -/
def readOp (ps : ProviderSettings) (state : FhirResourceModel)
    (resp : HttpResponse) : Outcome FhirResourceModel :=
  match readFhirResourcePhase ps (state.resourceId.getD "") resp with
  | .err s d => .err s d
  | .crash m => .crash m
  | .ok body =>
    match jsonDecodeObj body with
    | none =>
      .err ("failed to unmarshal response JSON of the resource " ++
        state.resourceId.getD "") "json unmarshal error"
    | some json =>
      match goStringAssert (lookupField json "id") with
      | .err s d => .err s d
      | .crash m => .crash m
      | .ok id =>
        match goStringAssert (lookupField json "resourceType") with
        | .err s d => .err s d
        | .crash m => .crash m
        | .ok resourceType =>
          .ok { state with
                resourceId := some (buildIdentifier resourceType id),
                responseSha256 := some (sha256Hex (utf8Bytes body)) }

/-- `FhirResource.Update` (lines 251–283): run the persist pipeline against
the prior state's `resource_id`, hash the raw response body, type-assert
`id` out of the decoded response, and write into the *prior state* record:
`resource_id` from `resourceTypeStr` (the plan document's type) and the
response id, the fresh hash, and the plan's `file_path`/`file_sha256`;
`fhir_base_url` is never reassigned and so keeps the prior state's value. -/
def updateOp (ps : ProviderSettings) (prior plan : FhirResourceModel)
    (fileContent : Option String) (resp : HttpResponse) :
    Outcome FhirResourceModel :=
  match persistRequest ps ⟨plan.filePath, plan.fhirBaseUrl⟩ prior.resourceId fileContent with
  | .err s d => .err s d
  | .crash m => .crash m
  | .ok (req, resourceTypeStr) =>
    match persistResponse resourceTypeStr req.url resp with
    | .err s d => .err s d
    | .crash m => .crash m
    | .ok (body, json) =>
      match goStringAssert (lookupField json "id") with
      | .err s d => .err s d
      | .crash m => .crash m
      | .ok id =>
        .ok { prior with
              resourceId := some (buildIdentifier resourceTypeStr id),
              responseSha256 := some (sha256Hex (utf8Bytes body)),
              filePath := plan.filePath,
              fileSha256 := plan.fileSha256 }

/-- `FhirResource.Delete`, request part (lines 297–310): base URL resolved
exactly as in `persistFhirResource`, DELETE against the composite id. -/
def deleteRequest (ps : ProviderSettings) (state : FhirResourceModel) :
    HttpRequest :=
  { method := "DELETE",
    url := resolveBaseUrl state.fhirBaseUrl ps.fhirBaseUrl ++ "/" ++
      state.resourceId.getD "",
    headers := buildHeaders ps.defaultHeaders,
    body := .empty }

/-- `FhirResource.Delete`, response part (lines 319–323): classify the
status by its first byte; a success status ends the operation without
touching the body. -/
def deleteOp (ps : ProviderSettings) (state : FhirResourceModel)
    (resp : HttpResponse) : Outcome Unit :=
  match statusFirstByte resp.status with
  | .crash m => .crash m
  | .err s d => .err s d
  | .ok c =>
    if c = '2' then .ok ()
    else
      .err ("could not delete the resource using the URL " ++
          (deleteRequest ps state).url ++ ".")
        ("Error code " ++ resp.status ++ ". Response: " ++ resp.body)

/-! ### Projections used by the statements -/

/-- The stored `resource_id` of a finished operation, when it succeeded. -/
def stateIdOf : Outcome FhirResourceModel → Option String
  | .ok st => st.resourceId
  | _ => none

/-- The URL of a successfully assembled persist request. -/
def reqUrlOf : Outcome (HttpRequest × String) → Option String
  | .ok (req, _) => some req.url
  | _ => none

/-! ## Pipeline characterizations -/

theorem persistResponse_ok_body (rts url : String) (resp : HttpResponse)
    (body : String) (json : List (String × JVal))
    (h : persistResponse rts url resp = .ok (body, json)) : body = resp.body := by
  unfold persistResponse at h
  split at h
  · exact absurd h (by simp)
  · exact absurd h (by simp)
  · split at h
    · split at h
      · exact absurd h (by simp)
      · injection h with h1
        injection h1 with h2 h3
        exact h2.symm
    · exact absurd h (by simp)

theorem createOp_ok_hash (ps : ProviderSettings) (plan : FhirResourceModel)
    (fileContent : Option String) (resp : HttpResponse) (st : FhirResourceModel)
    (h : createOp ps plan fileContent resp = .ok st) :
    st.responseSha256 = some (sha256Hex (utf8Bytes resp.body)) := by
  unfold createOp at h
  split at h
  · exact absurd h (by simp)
  · exact absurd h (by simp)
  · split at h
    · exact absurd h (by simp)
    · exact absurd h (by simp)
    · rename_i req rts hpr body json hresp
      split at h
      · exact absurd h (by simp)
      · exact absurd h (by simp)
      · injection h with h1
        rw [← h1, persistResponse_ok_body _ _ _ _ _ hresp]

theorem updateOp_ok_hash (ps : ProviderSettings) (prior plan : FhirResourceModel)
    (fileContent : Option String) (resp : HttpResponse) (st : FhirResourceModel)
    (h : updateOp ps prior plan fileContent resp = .ok st) :
    st.responseSha256 = some (sha256Hex (utf8Bytes resp.body)) := by
  unfold updateOp at h
  split at h
  · exact absurd h (by simp)
  · exact absurd h (by simp)
  · split at h
    · exact absurd h (by simp)
    · exact absurd h (by simp)
    · rename_i req rts hpr body json hresp
      split at h
      · exact absurd h (by simp)
      · exact absurd h (by simp)
      · injection h with h1
        rw [← h1, persistResponse_ok_body _ _ _ _ _ hresp]

theorem readFhirResourcePhase_ok_body (ps : ProviderSettings) (resourceId : String)
    (resp : HttpResponse) (body : String)
    (h : readFhirResourcePhase ps resourceId resp = .ok body) : body = resp.body := by
  unfold readFhirResourcePhase at h
  split at h
  · exact absurd h (by simp)
  · exact absurd h (by simp)
  · split at h
    · injection h with h1
      exact h1.symm
    · exact absurd h (by simp)

theorem readOp_ok_hash (ps : ProviderSettings) (state : FhirResourceModel)
    (resp : HttpResponse) (st : FhirResourceModel)
    (h : readOp ps state resp = .ok st) :
    st.responseSha256 = some (sha256Hex (utf8Bytes resp.body)) := by
  unfold readOp at h
  split at h
  · exact absurd h (by simp)
  · exact absurd h (by simp)
  · rename_i body hph
    split at h
    · exact absurd h (by simp)
    · split at h
      · exact absurd h (by simp)
      · exact absurd h (by simp)
      · split at h
        · exact absurd h (by simp)
        · exact absurd h (by simp)
        · injection h with h1
          rw [← h1, readFhirResourcePhase_ok_body _ _ _ _ hph]

theorem updateOp_ok_char (ps : ProviderSettings) (prior plan : FhirResourceModel)
    (content : String) (resp : HttpResponse) (rid : String)
    (fields : List (String × JVal)) (rtv : JVal)
    (json : List (String × JVal)) (i : String)
    (h0 : prior.resourceId = some rid)
    (h1 : jsonDecodeObj content = some fields)
    (h2 : lookupField fields "resourceType" = some rtv)
    (h3 : statusFirstByte resp.status = Outcome.ok '2')
    (h4 : jsonDecodeObj resp.body = some json)
    (h5 : goStringAssert (lookupField json "id") = Outcome.ok i) :
    updateOp ps prior plan (some content) resp =
      Outcome.ok { prior with
        resourceId := some (buildIdentifier (goFmtS rtv) i),
        responseSha256 := some (sha256Hex (utf8Bytes resp.body)),
        filePath := plan.filePath,
        fileSha256 := plan.fileSha256 } := by
  simp [updateOp, persistRequest, persistResponse, h0, h1, h2, h3, h4, h5]

theorem persistRequest_url (ps : ProviderSettings) (fset : FhirResourceSettings)
    (rido : Option String) (content : String)
    (fields : List (String × JVal)) (rtv : JVal)
    (h1 : jsonDecodeObj content = some fields)
    (h2 : lookupField fields "resourceType" = some rtv) :
    persistRequest ps fset rido (some content) =
      Outcome.ok (match rido with
        | none =>
          ({ method := "POST",
             url := resolveBaseUrl fset.fhirBaseUrl ps.fhirBaseUrl ++ "/" ++ goFmtS rtv,
             headers := buildHeaders ps.defaultHeaders,
             body := .rawBytes content }, goFmtS rtv)
        | some rid =>
          ({ method := "PUT",
             url := resolveBaseUrl fset.fhirBaseUrl ps.fhirBaseUrl ++ "/" ++ rid,
             headers := buildHeaders ps.defaultHeaders,
             body := .jsonDoc (setField fields "id" (.jstr (extractBareId rid))) },
           goFmtS rtv)) := by
  cases rido <;> simp [persistRequest, h1, h2]

theorem persistRequest_noResourceType (ps : ProviderSettings)
    (fset : FhirResourceSettings) (rido : Option String) (content : String)
    (fields : List (String × JVal))
    (h1 : jsonDecodeObj content = some fields)
    (h2 : lookupField fields "resourceType" = none) :
    persistRequest ps fset rido (some content) =
      Outcome.err ("property resourceType not found in json file " ++
        fset.fhirResourceFilePath) "" := by
  simp [persistRequest, h1, h2]

theorem persistRequest_ok_url (ps : ProviderSettings) (fset : FhirResourceSettings)
    (rido fc : Option String) (req : HttpRequest) (rts : String)
    (h : persistRequest ps fset rido fc = .ok (req, rts)) :
    req.url = resolveBaseUrl fset.fhirBaseUrl ps.fhirBaseUrl ++ "/" ++ rido.getD rts := by
  unfold persistRequest at h
  split at h
  · exact absurd h (by simp)
  · split at h
    · exact absurd h (by simp)
    · split at h
      · exact absurd h (by simp)
      · split at h
        · injection h with h1
          injection h1 with hreq hrts
          rw [← hreq, ← hrts]
          rfl
        · injection h with h1
          injection h1 with hreq hrts
          rw [← hreq]
          rfl

theorem persistRequest_ok_headers (ps : ProviderSettings) (fset : FhirResourceSettings)
    (rido fc : Option String) (req : HttpRequest) (rts : String)
    (h : persistRequest ps fset rido fc = .ok (req, rts)) :
    req.headers = buildHeaders ps.defaultHeaders := by
  unfold persistRequest at h
  split at h
  · exact absurd h (by simp)
  · split at h
    · exact absurd h (by simp)
    · split at h
      · exact absurd h (by simp)
      · split at h
        · injection h with h1
          injection h1 with hreq hrts
          rw [← hreq]
        · injection h with h1
          injection h1 with hreq hrts
          rw [← hreq]

/-! ## The claims -/

/-- C1, counterexample: the code's bare-id extraction takes the segment
after the *last* slash, so for the valid pair ("Patient", "a/b") the id
part of Parse(Build(type, id)) is "b", not the verbatim "a/b" the claim
requires (the spec-level leftmost split, in contrast, does return "a/b"). -/
theorem c1_counterexample :
    extractBareId (buildIdentifier "Patient" "a/b") = "b" ∧
    extractBareId (buildIdentifier "Patient" "a/b") ≠ "a/b" ∧
    specParse (buildIdentifier "Patient" "a/b") = some ("Patient", "a/b") :=
  ⟨rfl, by decide, rfl⟩

/-- C1, amended: for a valid pair (type non-empty, no slash) whose id also
contains no slash, the code's extraction recovers the id from the built
identifier, and the spec-level parse agrees; the round trip fails as soon
as the id itself contains a slash, because the code splits at the
rightmost slash rather than the leftmost. -/
theorem c1_amended (t i : String) (_h1 : t ≠ "") (h2 : '/' ∉ t.data)
    (h3 : '/' ∉ i.data) :
    extractBareId (buildIdentifier t i) = i ∧
    specParse (buildIdentifier t i) = some (t, i) :=
  ⟨extractBareId_buildIdentifier t i h3, specParse_buildIdentifier t i h2⟩

/-- C1, witness: the amended round trip at the spec's own example pair. -/
theorem c1_witness :
    ("Patient" ≠ "" ∧ '/' ∉ "Patient".data ∧
      '/' ∉ "08146022-932a-4001-9fe4-928382855ddf".data) ∧
    extractBareId (buildIdentifier "Patient" "08146022-932a-4001-9fe4-928382855ddf") =
      "08146022-932a-4001-9fe4-928382855ddf" ∧
    specParse (buildIdentifier "Patient" "08146022-932a-4001-9fe4-928382855ddf") =
      some ("Patient", "08146022-932a-4001-9fe4-928382855ddf") :=
  ⟨⟨by decide, by decide, by decide⟩,
   c1_amended "Patient" "08146022-932a-4001-9fe4-928382855ddf"
     (by decide) (by decide) (by decide)⟩

/-- C2: a 2xx response whose JSON object body lacks the asserted key does
not produce the structured MissingFieldError diagnostic the claim promises;
the unchecked Go type assertion (`responseJson["id"].(string)` on Create,
`responseJson["resourceType"].(string)` on Read) raises a runtime panic
that escapes the diagnostics discipline.  Evaluated here on Create with a
2xx response whose body is the empty object, and on Read with a 2xx
response whose body has an id but no resourceType. -/
theorem c2_code_bug :
    createOp ⟨"http://fhir.example", []⟩ ⟨"doc.json", none, none, none, none⟩
      (some "\x7b\"resourceType\":\"Patient\"\x7d") ⟨"201 Created", "\x7b\x7d"⟩ =
      Outcome.crash "runtime error: interface conversion to string failed" ∧
    readOp ⟨"http://fhir.example", []⟩ ⟨"doc.json", none, none, some "Patient/1", none⟩
      ⟨"200 OK", "\x7b\"id\":\"p1\"\x7d"⟩ =
      Outcome.crash "runtime error: interface conversion to string failed" :=
  ⟨rfl, rfl⟩

/-- C3, counterexample: an identifier with no slash does not make Update
fail with a FormatError — extraction returns the whole identifier and the
persist pipeline still assembles (and would send) the PUT request. -/
theorem c3_counterexample :
    extractBareId "Patient" = "Patient" ∧
    (persistRequest ⟨"http://fhir.example", []⟩ ⟨"doc.json", none⟩ (some "Patient")
      (some "\x7b\"resourceType\":\"Patient\"\x7d")).isOk = true :=
  ⟨rfl, rfl⟩

/-- C3, amended: parsing a slash-free identifier never fails; the bare id
is the whole identifier, and with a well-formed document the update request
phase succeeds, so the remote request is issued rather than aborted. -/
theorem c3_amended (ps : ProviderSettings) (fset : FhirResourceSettings)
    (rid content : String) (fields : List (String × JVal)) (rtv : JVal)
    (h1 : jsonDecodeObj content = some fields)
    (h2 : lookupField fields "resourceType" = some rtv)
    (h3 : '/' ∉ rid.data) :
    extractBareId rid = rid ∧
    (persistRequest ps fset (some rid) (some content)).isOk = true := by
  refine ⟨extractBareId_of_no_slash rid h3, ?_⟩
  rw [persistRequest_url ps fset (some rid) content fields rtv h1 h2]
  rfl

/-- C3, witness: the amended behaviour at a concrete slash-free
identifier and a concrete document. -/
theorem c3_witness :
    (jsonDecodeObj "\x7b\"resourceType\":\"Patient\"\x7d" =
        some [("resourceType", JVal.jstr "Patient")] ∧
      lookupField [("resourceType", JVal.jstr "Patient")] "resourceType" =
        some (JVal.jstr "Patient") ∧
      '/' ∉ "Observation".data) ∧
    extractBareId "Observation" = "Observation" ∧
    (persistRequest ⟨"http://fhir.example", [("Accept", "application/json")]⟩
      ⟨"doc.json", some "http://override.example"⟩ (some "Observation")
      (some "\x7b\"resourceType\":\"Patient\"\x7d")).isOk = true :=
  ⟨⟨rfl, rfl, by decide⟩,
   c3_amended ⟨"http://fhir.example", [("Accept", "application/json")]⟩
     ⟨"doc.json", some "http://override.example"⟩ "Observation"
     "\x7b\"resourceType\":\"Patient\"\x7d" [("resourceType", JVal.jstr "Patient")]
     (JVal.jstr "Patient") rfl rfl (by decide)⟩

/-- C4, counterexample: a successful Update whose response carries
resourceType "Observation" and id "x", applied to a local document of
resourceType "Patient", stores resource_id "Patient/x" — the type comes
from the local document, not from the response as the claim states. -/
theorem c4_counterexample :
    stateIdOf (updateOp ⟨"http://fhir.example", []⟩
        ⟨"old.json", none, none, some "Patient/1", none⟩
        ⟨"doc.json", none, none, none, none⟩
        (some "\x7b\"resourceType\":\"Patient\"\x7d")
        ⟨"200 OK", "\x7b\"resourceType\":\"Observation\",\"id\":\"x\"\x7d"⟩) =
      some "Patient/x" ∧
    (some "Patient/x" : Option String) ≠ some "Observation/x" :=
  ⟨rfl, by decide⟩

/-- C4, amended: for every successful Update, the stored RemoteIdentifier
is "{type}/{id}" where the type is the fmt-formatted resourceType of the
*local plan document* and the id is the response's id field. -/
theorem c4_amended (ps : ProviderSettings) (prior plan : FhirResourceModel)
    (content : String) (resp : HttpResponse) (rid : String)
    (fields : List (String × JVal)) (rtv : JVal)
    (json : List (String × JVal)) (i : String)
    (h0 : prior.resourceId = some rid)
    (h1 : jsonDecodeObj content = some fields)
    (h2 : lookupField fields "resourceType" = some rtv)
    (h3 : statusFirstByte resp.status = Outcome.ok '2')
    (h4 : jsonDecodeObj resp.body = some json)
    (h5 : goStringAssert (lookupField json "id") = Outcome.ok i) :
    stateIdOf (updateOp ps prior plan (some content) resp) =
      some (buildIdentifier (goFmtS rtv) i) := by
  rw [updateOp_ok_char ps prior plan content resp rid fields rtv json i h0 h1 h2 h3 h4 h5]
  rfl

/-- C4, witness: the amended identifier assembly at a concrete update whose
response type ("Observation") differs from the document type ("Patient"). -/
theorem c4_witness :
    ((⟨"old.json", none, none, some "Patient/8", none⟩ :
        FhirResourceModel).resourceId = some "Patient/8" ∧
      jsonDecodeObj "\x7b\"resourceType\":\"Patient\"\x7d" =
        some [("resourceType", JVal.jstr "Patient")] ∧
      lookupField [("resourceType", JVal.jstr "Patient")] "resourceType" =
        some (JVal.jstr "Patient") ∧
      statusFirstByte "200 OK" = Outcome.ok '2' ∧
      jsonDecodeObj "\x7b\"resourceType\":\"Observation\",\"id\":\"y\"\x7d" =
        some [("resourceType", JVal.jstr "Observation"), ("id", JVal.jstr "y")] ∧
      goStringAssert (lookupField
        [("resourceType", JVal.jstr "Observation"), ("id", JVal.jstr "y")] "id") =
        Outcome.ok "y") ∧
    stateIdOf (updateOp ⟨"http://fhir.example", []⟩
        ⟨"old.json", none, none, some "Patient/8", none⟩
        ⟨"new.json", some "filehash", none, none, none⟩
        (some "\x7b\"resourceType\":\"Patient\"\x7d")
        ⟨"200 OK", "\x7b\"resourceType\":\"Observation\",\"id\":\"y\"\x7d"⟩) =
      some "Patient/y" :=
  ⟨⟨rfl, rfl, rfl, rfl, rfl, rfl⟩,
   c4_amended ⟨"http://fhir.example", []⟩
     ⟨"old.json", none, none, some "Patient/8", none⟩
     ⟨"new.json", some "filehash", none, none, none⟩
     "\x7b\"resourceType\":\"Patient\"\x7d"
     ⟨"200 OK", "\x7b\"resourceType\":\"Observation\",\"id\":\"y\"\x7d"⟩
     "Patient/8" [("resourceType", JVal.jstr "Patient")] (JVal.jstr "Patient")
     [("resourceType", JVal.jstr "Observation"), ("id", JVal.jstr "y")] "y"
     rfl rfl rfl rfl rfl rfl⟩

/-- C5, counterexample: a present-but-empty override is used verbatim (the
claim requires the configured default instead), and the Read operation's
GET helper builds its URL from the configured default even when a per-call
override is present — the resolution rule is not the claimed one and is not
identical across the four operations. -/
theorem c5_counterexample :
    resolveBaseUrl (some "") "http://fhir.example" = "" ∧
    "" ≠ "http://fhir.example" ∧
    readOp ⟨"http://default.example", []⟩
        ⟨"doc.json", none, some "http://override.example", some "Patient/1", none⟩
        ⟨"404 Not Found", "nf"⟩ =
      Outcome.err "could not get the resource using the URL http://default.example/Patient/1."
        "Error code 404 Not Found. Response: nf" :=
  ⟨rfl, by decide, rfl⟩

/-- C5, amended: in Create, Update and Delete the effective base URL is the
per-call override whenever it is present (non-nil), even when it is empty,
and the configured default otherwise; the Read helper ignores the override
and always uses the configured default base URL. -/
theorem c5_amended :
    (∀ dflt o, resolveBaseUrl (some o) dflt = o) ∧
    (∀ dflt, resolveBaseUrl none dflt = dflt) ∧
    (∀ ps rid, (readFhirResourceRequest ps rid).url = ps.fhirBaseUrl ++ "/" ++ rid) ∧
    (∀ ps st, (deleteRequest ps st).url =
      resolveBaseUrl st.fhirBaseUrl ps.fhirBaseUrl ++ "/" ++ st.resourceId.getD "") ∧
    (∀ ps fset rido fc,
      match persistRequest ps fset rido fc with
      | .ok (req, rts) => req.url =
          resolveBaseUrl fset.fhirBaseUrl ps.fhirBaseUrl ++ "/" ++ rido.getD rts
      | _ => True) := by
  refine ⟨fun _ _ => rfl, fun _ => rfl, fun _ _ => rfl, fun _ _ => rfl, ?_⟩
  intro ps fset rido fc
  cases hpr : persistRequest ps fset rido fc with
  | ok p =>
    obtain ⟨req, rts⟩ := p
    exact persistRequest_ok_url ps fset rido fc req rts hpr
  | err s d => trivial
  | crash m => trivial

/-- C6, counterexample: a document whose resourceType is present but the
empty string (so not "a non-empty string") does not fail with a
SchemaError — the request phase succeeds and a POST to "{base}/" is
issued. -/
theorem c6_counterexample :
    (persistRequest ⟨"http://fhir.example", []⟩ ⟨"doc.json", none⟩ none
      (some "\x7b\"resourceType\":\"\"\x7d")).isOk = true ∧
    reqUrlOf (persistRequest ⟨"http://fhir.example", []⟩ ⟨"doc.json", none⟩ none
      (some "\x7b\"resourceType\":\"\"\x7d")) = some "http://fhir.example/" :=
  ⟨rfl, rfl⟩

/-- C6, amended: Create and Update fail before any network call with the
resourceType-not-found diagnostic exactly when the key `resourceType` is
*absent* from the decoded document; a present value — even empty or
non-string — lets the request phase proceed. -/
theorem c6_amended (ps : ProviderSettings) (fset : FhirResourceSettings)
    (rido : Option String) (content : String) (fields : List (String × JVal))
    (h1 : jsonDecodeObj content = some fields) :
    ((persistRequest ps fset rido (some content)).isOk =
      (lookupField fields "resourceType").isSome) ∧
    (lookupField fields "resourceType" = none →
      persistRequest ps fset rido (some content) =
        Outcome.err ("property resourceType not found in json file " ++
          fset.fhirResourceFilePath) "") := by
  cases hrt : lookupField fields "resourceType" with
  | none =>
    refine ⟨?_, fun _ => persistRequest_noResourceType ps fset rido content fields h1 hrt⟩
    rw [persistRequest_noResourceType ps fset rido content fields h1 hrt]
    rfl
  | some rtv =>
    refine ⟨?_, fun hc => Option.noConfusion hc⟩
    rw [persistRequest_url ps fset rido content fields rtv h1 hrt]
    rfl

/-- C6, witness: the amended behaviour at a concrete document that has no
resourceType key — the request phase fails with the diagnostic and no
request value is ever produced. -/
theorem c6_witness :
    jsonDecodeObj "\x7b\"name\":\"x\"\x7d" = some [("name", JVal.jstr "x")] ∧
    ((persistRequest ⟨"http://fhir.example", []⟩ ⟨"nameonly.json", none⟩ none
        (some "\x7b\"name\":\"x\"\x7d")).isOk =
      (lookupField [("name", JVal.jstr "x")] "resourceType").isSome ∧
    (lookupField [("name", JVal.jstr "x")] "resourceType" = none →
      persistRequest ⟨"http://fhir.example", []⟩ ⟨"nameonly.json", none⟩ none
          (some "\x7b\"name\":\"x\"\x7d") =
        Outcome.err "property resourceType not found in json file nameonly.json" "")) :=
  ⟨rfl, c6_amended ⟨"http://fhir.example", []⟩ ⟨"nameonly.json", none⟩ none
    "\x7b\"name\":\"x\"\x7d" [("name", JVal.jstr "x")] rfl⟩

/-- C7: every successful Create, Read and Update stores as its fingerprint
exactly the hex-encoded SHA-256 digest of the raw response body bytes —
the hash input is the literal wire payload, never a re-serialized JSON
value, so identical response bytes always yield identical fingerprints. -/
theorem c7_fingerprint (ps : ProviderSettings) (prior plan state : FhirResourceModel)
    (fileContent : Option String) (resp : HttpResponse) :
    (match createOp ps plan fileContent resp with
     | .ok st => st.responseSha256 = some (sha256Hex (utf8Bytes resp.body))
     | _ => True) ∧
    (match readOp ps state resp with
     | .ok st => st.responseSha256 = some (sha256Hex (utf8Bytes resp.body))
     | _ => True) ∧
    (match updateOp ps prior plan fileContent resp with
     | .ok st => st.responseSha256 = some (sha256Hex (utf8Bytes resp.body))
     | _ => True) := by
  refine ⟨?_, ?_, ?_⟩
  · cases hc : createOp ps plan fileContent resp with
    | ok st => exact createOp_ok_hash _ _ _ _ _ hc
    | err s d => trivial
    | crash m => trivial
  · cases hc : readOp ps state resp with
    | ok st => exact readOp_ok_hash _ _ _ _ hc
    | err s d => trivial
    | crash m => trivial
  · cases hc : updateOp ps prior plan fileContent resp with
    | ok st => exact updateOp_ok_hash _ _ _ _ _ _ hc
    | err s d => trivial
    | crash m => trivial

/-- C8: the assembled headers of every operation's outgoing request set all
configured default headers (under canonical MIME keys, provided those keys
are pairwise distinct after canonicalisation) and force Content-Type to
application/json last, overriding any default entry for that key. -/
theorem c8_headers (defaults : List (String × String)) :
    hlookup (buildHeaders defaults) "Content-Type" = some "application/json" ∧
    (∀ k v, (k, v) ∈ defaults → (defaults.map fun p => canonicalKey p.1).Nodup →
      canonicalKey k ≠ "Content-Type" →
      hlookup (buildHeaders defaults) k = some v) ∧
    (∀ ps rid, (readFhirResourceRequest ps rid).headers = buildHeaders ps.defaultHeaders) ∧
    (∀ ps st, (deleteRequest ps st).headers = buildHeaders ps.defaultHeaders) ∧
    (∀ ps fset rido fc,
      match persistRequest ps fset rido fc with
      | .ok (req, _) => req.headers = buildHeaders ps.defaultHeaders
      | _ => True) := by
  refine ⟨hlookup_hset_self _ _ _, ?_, fun _ _ => rfl, fun _ _ => rfl, ?_⟩
  · intro k v hmem hnd hne
    unfold buildHeaders
    have hct : canonicalKey "Content-Type" = "Content-Type" := rfl
    rw [hlookup_hset_other _ _ _ _ (by rw [hct]; exact hne)]
    exact hlookup_foldl_of_mem defaults [] k v hmem hnd
  · intro ps fset rido fc
    cases hpr : persistRequest ps fset rido fc with
    | ok p =>
      obtain ⟨req, rts⟩ := p
      exact persistRequest_ok_headers ps fset rido fc req rts hpr
    | err s d => trivial
    | crash m => trivial

/-- C8, witness: with defaults containing an Authorization header and a
lower-case content-type entry, the final Content-Type is still
application/json and the Authorization default survives. -/
theorem c8_witness :
    hlookup (buildHeaders [("Authorization", "Bearer tok"), ("content-type", "text/xml")])
      "Content-Type" = some "application/json" ∧
    (("Authorization", "Bearer tok") ∈
        [("Authorization", "Bearer tok"), ("content-type", "text/xml")] ∧
      ([("Authorization", "Bearer tok"), ("content-type", "text/xml")].map
        fun p => canonicalKey p.1).Nodup ∧
      canonicalKey "Authorization" ≠ "Content-Type") ∧
    hlookup (buildHeaders [("Authorization", "Bearer tok"), ("content-type", "text/xml")])
      "Authorization" = some "Bearer tok" :=
  ⟨(c8_headers [("Authorization", "Bearer tok"), ("content-type", "text/xml")]).1,
   ⟨by decide, by decide, by decide⟩,
   (c8_headers [("Authorization", "Bearer tok"), ("content-type", "text/xml")]).2.1
     "Authorization" "Bearer tok" (by decide) (by decide) (by decide)⟩

/-- C9: success classification reads the first byte of the status string
('2' means success), so it is total exactly when the status is non-empty;
an empty status string makes the classification — and with it Delete, the
Read helper and the persist response phase — panic with an
index-out-of-range runtime error instead of returning a diagnostic. -/
theorem c9_status (s rts url : String) (ps : ProviderSettings)
    (state : FhirResourceModel) (resp : HttpResponse) :
    (s ≠ "" → statusFirstByte s = Outcome.ok (s.data.headD ' ')) ∧
    (statusFirstByte "" =
      Outcome.crash "runtime error: index out of range [0] with length 0") ∧
    (resp.status = "" →
      deleteOp ps state resp =
        Outcome.crash "runtime error: index out of range [0] with length 0" ∧
      readFhirResourcePhase ps (state.resourceId.getD "") resp =
        Outcome.crash "runtime error: index out of range [0] with length 0" ∧
      persistResponse rts url resp =
        Outcome.crash "runtime error: index out of range [0] with length 0") := by
  refine ⟨?_, rfl, ?_⟩
  · intro h
    obtain ⟨data⟩ := s
    cases data with
    | nil => exact absurd rfl h
    | cons c cs => rfl
  · intro h
    have hs : statusFirstByte resp.status =
        Outcome.crash "runtime error: index out of range [0] with length 0" := by
      rw [h]
      rfl
    refine ⟨?_, ?_, ?_⟩
    · simp [deleteOp, hs]
    · simp [readFhirResourcePhase, hs]
    · simp [persistResponse, hs]

/-- C9, witness: classification at a concrete non-empty status, and the
panic of Delete at a concrete response with an empty status string. -/
theorem c9_witness :
    statusFirstByte "200 OK" = Outcome.ok '2' ∧
    deleteOp ⟨"http://fhir.example", []⟩
        ⟨"doc.json", none, none, some "Patient/1", none⟩ ⟨"", ""⟩ =
      Outcome.crash "runtime error: index out of range [0] with length 0" :=
  ⟨(c9_status "200 OK" "t" "u" ⟨"x", []⟩ ⟨"p", none, none, none, none⟩
      ⟨"s", "b"⟩).1 (by decide),
   ((c9_status "x" "t" "u" ⟨"http://fhir.example", []⟩
      ⟨"doc.json", none, none, some "Patient/1", none⟩ ⟨"", ""⟩).2.2 rfl).1⟩

/-- C10, counterexample: two successful Updates receiving byte-identical
responses but different plan documents store different resource_id values,
so resource_id does not come from the response alone — its type segment is
the plan document's resourceType. -/
theorem c10_counterexample :
    stateIdOf (updateOp ⟨"http://fhir.example", []⟩
        ⟨"old.json", none, none, some "Medication/7", none⟩
        ⟨"m.json", none, none, none, none⟩
        (some "\x7b\"resourceType\":\"Medication\"\x7d")
        ⟨"200 OK", "\x7b\"id\":\"z\"\x7d"⟩) = some "Medication/z" ∧
    stateIdOf (updateOp ⟨"http://fhir.example", []⟩
        ⟨"old.json", none, none, some "Medication/7", none⟩
        ⟨"m.json", none, none, none, none⟩
        (some "\x7b\"resourceType\":\"Practitioner\"\x7d")
        ⟨"200 OK", "\x7b\"id\":\"z\"\x7d"⟩) = some "Practitioner/z" ∧
    (some "Medication/z" : Option String) ≠ some "Practitioner/z" :=
  ⟨rfl, rfl, by decide⟩

/-- C10, amended: after a successful Update the saved state's file_path and
file_sha256 come from the plan, fhir_base_url retains the prior state's
value, response_sha256 is the hash of the raw response body, and
resource_id joins the plan document's resourceType with the response's id. -/
theorem c10_amended (ps : ProviderSettings) (prior plan : FhirResourceModel)
    (content : String) (resp : HttpResponse) (rid : String)
    (fields : List (String × JVal)) (rtv : JVal)
    (json : List (String × JVal)) (i : String)
    (h0 : prior.resourceId = some rid)
    (h1 : jsonDecodeObj content = some fields)
    (h2 : lookupField fields "resourceType" = some rtv)
    (h3 : statusFirstByte resp.status = Outcome.ok '2')
    (h4 : jsonDecodeObj resp.body = some json)
    (h5 : goStringAssert (lookupField json "id") = Outcome.ok i) :
    match updateOp ps prior plan (some content) resp with
    | .ok st => st.filePath = plan.filePath ∧ st.fileSha256 = plan.fileSha256 ∧
        st.fhirBaseUrl = prior.fhirBaseUrl ∧
        st.responseSha256 = some (sha256Hex (utf8Bytes resp.body)) ∧
        st.resourceId = some (buildIdentifier (goFmtS rtv) i)
    | _ => False := by
  rw [updateOp_ok_char ps prior plan content resp rid fields rtv json i h0 h1 h2 h3 h4 h5]
  exact ⟨rfl, rfl, rfl, rfl, rfl⟩

/-- C10, witness: the amended frame property at a concrete update in which
the prior state, the plan and the response carry distinct values. -/
theorem c10_witness :
    ((⟨"old.json", some "oldsha", some "http://prior.example", some "Medication/7", none⟩ :
        FhirResourceModel).resourceId = some "Medication/7" ∧
      jsonDecodeObj "\x7b\"resourceType\":\"Medication\"\x7d" =
        some [("resourceType", JVal.jstr "Medication")] ∧
      lookupField [("resourceType", JVal.jstr "Medication")] "resourceType" =
        some (JVal.jstr "Medication") ∧
      statusFirstByte "200 OK" = Outcome.ok '2' ∧
      jsonDecodeObj "\x7b\"id\":\"7\"\x7d" = some [("id", JVal.jstr "7")] ∧
      goStringAssert (lookupField [("id", JVal.jstr "7")] "id") = Outcome.ok "7") ∧
    (match updateOp ⟨"http://fhir.example", [("Authorization", "Bearer t0")]⟩
        ⟨"old.json", some "oldsha", some "http://prior.example", some "Medication/7", none⟩
        ⟨"new.json", some "newsha", some "http://plan.example", none, none⟩
        (some "\x7b\"resourceType\":\"Medication\"\x7d")
        ⟨"200 OK", "\x7b\"id\":\"7\"\x7d"⟩ with
     | .ok st => st.filePath = "new.json" ∧ st.fileSha256 = some "newsha" ∧
         st.fhirBaseUrl = some "http://prior.example" ∧
         st.responseSha256 = some (sha256Hex (utf8Bytes "\x7b\"id\":\"7\"\x7d")) ∧
         st.resourceId = some "Medication/7"
     | _ => False) :=
  ⟨⟨rfl, rfl, rfl, rfl, rfl, rfl⟩,
   c10_amended ⟨"http://fhir.example", [("Authorization", "Bearer t0")]⟩
     ⟨"old.json", some "oldsha", some "http://prior.example", some "Medication/7", none⟩
     ⟨"new.json", some "newsha", some "http://plan.example", none, none⟩
     "\x7b\"resourceType\":\"Medication\"\x7d" ⟨"200 OK", "\x7b\"id\":\"7\"\x7d"⟩
     "Medication/7" [("resourceType", JVal.jstr "Medication")] (JVal.jstr "Medication")
     [("id", JVal.jstr "7")] "7" rfl rfl rfl rfl rfl rfl⟩
